import Mathlib

/-!
Verification development for the Google_Hackathon journey/timeline project.

Part 1 embeds the migration-analysis page (`MIGRATION_STAGES`,
`getStageStatus`) and the dashboard statistics. Part 2 models, from the
specification, the core orchestration engine (fact merging, timeline
synthesis, reconciliation, trigger dispatch) whose implementation is not
part of the checked-in sources.
-/

namespace Hackathon

/-- A migration stage as listed in `MIGRATION_STAGES` on the analysis page.
The React icon component is represented by its imported name. -/
structure Stage where
  id : String
  title : String
  description : String
  icon : String
  color : String
  estimatedTime : String
  dependencies : List String
deriving DecidableEq, Repr

/-- First entry of the `MIGRATION_STAGES` array of the analysis page. -/
def visaStage : Stage :=
  { id := "visa",
    title := "Visa Application",
    description := "Submit your visa application and required documents",
    icon := "Document",
    color := "blue",
    estimatedTime := "2-4 weeks",
    dependencies := [] }

/-- Second entry of the `MIGRATION_STAGES` array. -/
def insuranceStage : Stage :=
  { id := "insurance",
    title := "Health Insurance",
    description := "Obtain mandatory health insurance coverage",
    icon := "Shield",
    color := "green",
    estimatedTime := "1-2 weeks",
    dependencies := ["visa"] }

/-- Third entry of the `MIGRATION_STAGES` array. -/
def bankStage : Stage :=
  { id := "bank",
    title := "Bank Account",
    description := "Open a bank account in your destination country",
    icon := "Banknotes",
    color := "purple",
    estimatedTime := "1-3 weeks",
    dependencies := ["visa", "insurance"] }

/-- Fourth entry of the `MIGRATION_STAGES` array. -/
def incomeStage : Stage :=
  { id := "income",
    title := "Proof of Income",
    description := "Provide financial documentation and proof of funds",
    icon := "CurrencyDollar",
    color := "orange",
    estimatedTime := "1-2 weeks",
    dependencies := ["bank"] }

/-- Fifth entry of the `MIGRATION_STAGES` array. -/
def flightStage : Stage :=
  { id := "flight",
    title := "Flight Options",
    description := "Book your flight and finalize travel arrangements",
    icon := "PaperAirplane",
    color := "indigo",
    estimatedTime := "1 week",
    dependencies := ["visa", "insurance", "bank", "income"] }

/-- The constant `MIGRATION_STAGES` array of the analysis page. -/
def MIGRATION_STAGES : List Stage :=
  [visaStage, insuranceStage, bankStage, incomeStage, flightStage]

/-- The slice of the loosely typed `migrationData` object (parsed from
session storage) that `getStageStatus` actually reads: its `visaStatus`
field, which may be absent. -/
structure MigrationData where
  visaStatus : Option String
deriving DecidableEq, Repr

/-- The `getStageStatus` function of the analysis page.  `migrationData`
may be `null` (the optional-chaining accesses), and `analysisComplete` is
the component state flag. -/
def getStageStatus (stage : Stage) (migrationData : Option MigrationData)
    (analysisComplete : Bool) : String :=
  if !analysisComplete then "pending"
  else if stage.id = "visa" then
    if migrationData.bind MigrationData.visaStatus = some "yes" then "completed"
    else if migrationData.bind MigrationData.visaStatus = some "applied" then "in-progress"
    else "pending"
  else if stage.id = "insurance" then "pending"
  else if stage.id = "bank" then "pending"
  else if stage.id = "income" then "pending"
  else if stage.id = "flight" then "pending"
  else "pending"

/-- Direct dependency relation of the `MIGRATION_STAGES` set: `a` depends
on `b` when some stage with id `a` lists `b` among its dependencies. -/
def dependsOn (a b : String) : Prop :=
  ∃ s ∈ MIGRATION_STAGES, s.id = a ∧ b ∈ s.dependencies

instance : DecidablePred fun p : String × String => dependsOn p.1 p.2 := by
  intro p
  unfold dependsOn
  infer_instance

/-- Ranking function witnessing that the `MIGRATION_STAGES` dependency
graph has no cycles (each stage only depends on strictly lower ranks). -/
def stageRank (a : String) : Nat :=
  if a = "visa" then 0
  else if a = "insurance" then 1
  else if a = "bank" then 2
  else if a = "income" then 3
  else 4

/-- A timeline event as consumed by the dashboard page (the
`TimelineEvent` interface of the mock timeline module); only the fields
the dashboard statistics read are modelled, with the date as an epoch
number. -/
structure TimelineEvent where
  id : String
  title : String
  description : String
  date : Nat
  status : String
  priority : String
  kind : String
  daysRemaining : Option Nat
deriving DecidableEq, Repr

/-- The `upcomingDeadlines` statistic of the dashboard page: events that
are `upcoming` with `critical` priority. -/
def upcomingDeadlines (mockTimeline : List TimelineEvent) : Nat :=
  (mockTimeline.filter fun event =>
    event.status == "upcoming" && event.priority == "critical").length

/-- The `completedTasks` statistic of the dashboard page. -/
def completedTasks (mockTimeline : List TimelineEvent) : Nat :=
  (mockTimeline.filter fun event => event.status == "completed").length

/-- The `totalTasks` statistic of the dashboard page. -/
def totalTasks (mockTimeline : List TimelineEvent) : Nat :=
  mockTimeline.length

/-- The `overallProgress` statistic of the dashboard page,
`(completedTasks / totalTasks) * 100`, computed over the rationals. -/
def overallProgress (mockTimeline : List TimelineEvent) : ℚ :=
  ((completedTasks mockTimeline : ℚ) / (totalTasks mockTimeline : ℚ)) * 100

/-- Modelled from the spec: a structured `Fact {value, confidence,
sourceRef, observedAt}` of the core engine's data model.  The Fact Merger
implementation is not among the checked-in sources; times and confidences
are modelled as naturals. -/
structure Fact where
  value : String
  confidence : Nat
  sourceRef : String
  observedAt : Nat
deriving DecidableEq, Repr

/-- Modelled from the spec: a `FactSet` maps each `FactKey` (a stable
string identifier) to at most one current `Fact`; represented as an
association list. -/
abbrev FactSet := List (String × Fact)

/-- Modelled from the spec: the keys currently present in a fact set. -/
def factKeys (fs : FactSet) : List String :=
  fs.map Prod.fst

/-- Modelled from the spec: last-writer-by-time-wins resolution between
the stored fact and a candidate for the same key.  The candidate replaces
the stored fact when strictly newer by `observedAt`, or equally new with
strictly higher confidence (the spec's confidence-then-arrival-order
tie-break); otherwise it is rejected as stale. -/
def resolveFact (stored candidate : Fact) : Fact :=
  if stored.observedAt < candidate.observedAt then candidate
  else if stored.observedAt = candidate.observedAt ∧
      stored.confidence < candidate.confidence then candidate
  else stored

/-- Modelled from the spec: look up the current fact for a key. -/
def lookupFact : FactSet → String → Option Fact
  | [], _ => none
  | (k, f) :: rest, key => if k = key then some f else lookupFact rest key

/-- Modelled from the spec: merge one candidate fact for `key` into the
fact set, resolving against the stored fact when the key is present and
inserting the candidate otherwise. -/
def mergeFact : FactSet → String → Fact → FactSet
  | [], key, cand => [(key, cand)]
  | (k, f) :: rest, key, cand =>
    if k = key then (k, resolveFact f cand) :: rest
    else (k, f) :: mergeFact rest key cand

/-- Modelled from the spec: the Fact Merger's fold of a list of candidate
facts (keyed) into a journey's accumulated fact set. -/
def mergeFacts (fs : FactSet) (candidates : List (String × Fact)) : FactSet :=
  candidates.foldl (fun acc kc => mergeFact acc kc.1 kc.2) fs

/-- Modelled from the spec: a `TimelineStep` of the core data model, with
the pinned flag recording a user-pinned planned date (the Reconciler
implementation is not among the checked-in sources).  Dates are modelled
as naturals and the status as one of the spec's enum strings. -/
structure TimelineStep where
  stepId : String
  title : String
  kind : String
  plannedDate : Nat
  status : String
  dependsOn : List String
  pinnedDate : Bool
deriving DecidableEq, Repr

/-- Modelled from the spec: a `Timeline` is an ordered sequence of steps
plus `generatedAt` and the `sourceFactsHash` digest of the fact-set
snapshot it was derived from. -/
structure Timeline where
  steps : List TimelineStep
  generatedAt : Nat
  sourceFactsHash : Nat
deriving DecidableEq, Repr

/-- Modelled from the spec: find the step with a given id. -/
def findStep (steps : List TimelineStep) (sid : String) : Option TimelineStep :=
  steps.find? fun s => s.stepId == sid

/-- Modelled from the spec: the merged step for a stepId present in both
timelines keeps the old step's `status` and user-pinned date and adopts
the new step's structural fields (`title`, `kind`, `dependsOn`, and
`plannedDate` unless the date is pinned). -/
def mergeStep (oldStep newStep : TimelineStep) : TimelineStep :=
  { stepId := newStep.stepId
    title := newStep.title
    kind := newStep.kind
    plannedDate := if oldStep.pinnedDate then oldStep.plannedDate else newStep.plannedDate
    status := oldStep.status
    dependsOn := newStep.dependsOn
    pinnedDate := oldStep.pinnedDate }

/-- Modelled from the spec: the Reconciler's step-level merge.  Steps of
the new timeline are matched by `stepId` against the old timeline and
merged; steps present only in the old timeline that are already completed
are retained (never erase completed history). -/
def reconcileSteps (oldSteps newSteps : List TimelineStep) : List TimelineStep :=
  (newSteps.map fun ns =>
    match findStep oldSteps ns.stepId with
    | some os => mergeStep os ns
    | none => ns) ++
  (oldSteps.filter fun os =>
    os.status == "completed" && (findStep newSteps os.stepId).isNone)

/-- Modelled from the spec: `Reconcile(oldTimeline, newTimeline)`; the
merged timeline carries the new timeline's `generatedAt` and
`sourceFactsHash`. -/
def Reconcile (oldT newT : Timeline) : Timeline :=
  { steps := reconcileSteps oldT.steps newT.steps
    generatedAt := newT.generatedAt
    sourceFactsHash := newT.sourceFactsHash }

/-- Modelled from the spec: the digest of a fact-set snapshot used for
staleness checks; a simple rolling hash over keys and fact contents. -/
def factsHash (fs : FactSet) : Nat :=
  fs.foldl (fun h kf =>
    h * 31 + kf.1.length + kf.2.value.length + kf.2.observedAt + kf.2.confidence) 7

/-- Modelled from the spec: no id occurs twice in the list. -/
def allDistinct : List String → Bool
  | [] => true
  | x :: xs => !xs.contains x && allDistinct xs

/-- Modelled from the spec: the steps of `remaining` that still have a
dependency inside `remaining` (helper of the acyclicity check). -/
def stepsWithRemainingDeps (remaining : List TimelineStep) : List TimelineStep :=
  remaining.filter fun s =>
    s.dependsOn.any fun d => remaining.any fun t => t.stepId == d

/-- Modelled from the spec: acyclicity check of a step set by iterated
elimination of steps whose dependencies are all resolved; a round that
eliminates nothing while steps remain exposes a cycle. -/
def acyclicSteps : Nat → List TimelineStep → Bool
  | 0, remaining => remaining.isEmpty
  | fuel + 1, remaining =>
    if remaining.isEmpty then true
    else
      let rem := stepsWithRemainingDeps remaining
      if rem.length == remaining.length then false
      else acyclicSteps fuel rem

/-- Modelled from the spec: validation of a synthesized timeline draft —
every step has a unique `stepId`, dependency references resolve within
the set, and the dependency graph is acyclic. -/
def validateTimeline (steps : List TimelineStep) : Bool :=
  allDistinct (steps.map TimelineStep.stepId) &&
  (steps.all fun s => s.dependsOn.all fun d => steps.any fun t => t.stepId == d) &&
  acyclicSteps steps.length steps

/-- Modelled from the spec: a `Journey` of the core data model. -/
structure Journey where
  journeyId : String
  version : Nat
  facts : FactSet
  timeline : Timeline
  status : String
deriving DecidableEq, Repr

/-- Modelled from the spec: the Synthesizer's failure taxonomy. -/
inductive SynthesisError where
  | SynthesisUnavailable
  | SynthesisInvalid
deriving DecidableEq, Repr

/-- Modelled from the spec: `Synthesize(journeyId, facts)`, returning the
timeline and a flag recording whether the external plan-generation
collaborator was invoked.  When the digest of the given fact-set snapshot
equals the journey's current `Timeline.sourceFactsHash` it short-circuits
and returns the existing timeline unchanged with no external call;
otherwise it invokes the collaborator (`generatePlan`; `none` stands for
unreachable or rate-limited) and validates the draft, stamping the digest
on success. -/
def Synthesize (j : Journey) (facts : FactSet)
    (generatePlan : FactSet → Option Timeline) :
    Except SynthesisError (Timeline × Bool) :=
  if factsHash facts = j.timeline.sourceFactsHash then
    .ok (j.timeline, false)
  else
    match generatePlan facts with
    | none => .error .SynthesisUnavailable
    | some draft =>
      if validateTimeline draft.steps then
        .ok ({ draft with sourceFactsHash := factsHash facts }, true)
      else .error .SynthesisInvalid

/-- Modelled from the spec: a `Trigger` message delivered by an external
collaborator. -/
structure Trigger where
  journeyId : String
  kind : String
  payload : String
  receivedAt : Nat
  dedupeKey : String
deriving DecidableEq, Repr

/-- Modelled from the spec: the outcome of `Submit(Trigger)`. -/
inductive SubmitOutcome where
  | Accepted
  | Deduplicated
deriving DecidableEq, Repr

/-- Modelled from the spec: the Trigger Dispatcher's per-journey dedupe
record — the dedupe keys already processed for the journey and the number
of pipeline executions run for it. -/
structure DispatchState where
  processedKeys : List String
  pipelineRuns : Nat
deriving DecidableEq, Repr

/-- Modelled from the spec: `Submit(Trigger)` under the dedupe rule — a
trigger whose `dedupeKey` was already processed for this journey is
dropped unprocessed; otherwise its key is recorded and the pipeline runs
once for it. -/
def Submit (st : DispatchState) (t : Trigger) : DispatchState × SubmitOutcome :=
  if st.processedKeys.contains t.dedupeKey then (st, .Deduplicated)
  else ({ processedKeys := t.dedupeKey :: st.processedKeys,
          pipelineRuns := st.pipelineRuns + 1 }, .Accepted)

/-- Modelled from the spec: submitting a sequence of triggers in order. -/
def SubmitAll (st : DispatchState) (ts : List Trigger) : DispatchState :=
  ts.foldl (fun s t => (Submit s t).1) st

/-- Modelled from the spec: an event of the per-journey dispatcher state
machine — a trigger arrival or the completion of the in-flight pipeline
run. -/
inductive DispatchEvent where
  | arrival (t : Trigger)
  | completion
deriving DecidableEq, Repr

/-- Modelled from the spec: per-journey dispatcher occupancy — the count
of in-flight pipeline runs and the queued trigger batches (`Idle` has no
run and no batch, `Processing` one run, `Queued` one run and one
batch). -/
structure JourneyDispatch where
  inFlightRuns : Nat
  queuedBatches : List (List Trigger)
deriving DecidableEq, Repr

/-- Modelled from the spec: the dispatcher transition.  An arrival at idle
starts a run; an arrival while processing coalesces into the queued slot,
merging into the existing queued batch when one exists rather than
creating a second one.  A completion starts the queued batch when present
and otherwise returns to idle. -/
def dispatchStep (st : JourneyDispatch) (e : DispatchEvent) : JourneyDispatch :=
  match e with
  | .arrival t =>
    if st.inFlightRuns = 0 then
      { st with inFlightRuns := st.inFlightRuns + 1 }
    else
      match st.queuedBatches with
      | [] => { st with queuedBatches := [[t]] }
      | batch :: rest => { st with queuedBatches := (t :: batch) :: rest }
  | .completion =>
    if st.inFlightRuns = 0 then st
    else
      match st.queuedBatches with
      | [] => { st with inFlightRuns := st.inFlightRuns - 1 }
      | _ :: rest => { st with queuedBatches := rest }

/-- Modelled from the spec: the dispatcher state reached from idle after
an arbitrary interleaving of arrivals and completions. -/
def dispatchRun (events : List DispatchEvent) : JourneyDispatch :=
  events.foldl dispatchStep { inFlightRuns := 0, queuedBatches := [] }

theorem rank_lt_of_transGen {α : Type} (r : α → α → Prop) (rank : α → Nat)
    (hmono : ∀ a b, r a b → rank b < rank a) {a b : α}
    (h : Relation.TransGen r a b) : rank b < rank a := by
  induction h with
  | single h1 => exact hmono _ _ h1
  | tail _ h2 ih => exact lt_trans (hmono _ _ h2) ih

theorem dependsOn_rank_lt (a b : String) (h : dependsOn a b) :
    stageRank b < stageRank a := by
  obtain ⟨s, hs, hid, hdep⟩ := h
  subst hid
  fin_cases hs
  · simp [visaStage] at hdep
  · simp only [insuranceStage, List.mem_cons, List.not_mem_nil, or_false] at hdep
    subst hdep; decide
  · simp only [bankStage, List.mem_cons, List.not_mem_nil, or_false] at hdep
    rcases hdep with rfl | rfl <;> decide
  · simp only [incomeStage, List.mem_cons, List.not_mem_nil, or_false] at hdep
    subst hdep; decide
  · simp only [flightStage, List.mem_cons, List.not_mem_nil, or_false] at hdep
    rcases hdep with rfl | rfl | rfl | rfl <;> decide

/-- C1: in the `MIGRATION_STAGES` timeline every stage has a unique id,
every id listed in a stage's dependencies resolves to a stage of the same
set, and the dependency graph is acyclic (no stage id transitively depends
on itself). -/
theorem C1_migration_stages_wellformed :
    (MIGRATION_STAGES.map Stage.id).Nodup ∧
    (∀ s ∈ MIGRATION_STAGES, ∀ d ∈ s.dependencies, ∃ t ∈ MIGRATION_STAGES, t.id = d) ∧
    (∀ x : String, ¬ Relation.TransGen dependsOn x x) := by
  refine ⟨by decide, by decide, ?_⟩
  intro x hx
  exact lt_irrefl _ (rank_lt_of_transGen dependsOn stageRank dependsOn_rank_lt hx)

/-- Witness for C1: the dependency `"visa"` of `insuranceStage` resolves,
and the id `"insurance"` does not transitively depend on itself. -/
theorem C1_witness :
    (∃ t ∈ MIGRATION_STAGES, t.id = "visa") ∧
    ¬ Relation.TransGen dependsOn "insurance" "insurance" :=
  ⟨C1_migration_stages_wellformed.2.1 insuranceStage (by decide) "visa" (by decide),
   C1_migration_stages_wellformed.2.2 "insurance"⟩

/-- C2: for every input `migrationData` (including `null` and arbitrary
`visaStatus` values) and every `analysisComplete` flag, the statuses
`getStageStatus` assigns to the stages of `MIGRATION_STAGES` respect the
dependency invariant: a stage is never `"completed"` while one of its
dependencies is not `"completed"`. -/
theorem C2_getStageStatus_respects_dependencies
    (md : Option MigrationData) (ac : Bool) (s : Stage)
    (hs : s ∈ MIGRATION_STAGES)
    (hc : getStageStatus s md ac = "completed") :
    (s.dependencies.all fun d =>
      MIGRATION_STAGES.all fun t =>
        !(t.id == d) || (getStageStatus t md ac == "completed")) = true := by
  fin_cases hs
  · simp [visaStage]
  all_goals
    exfalso
    cases ac <;>
      simp [getStageStatus, insuranceStage, bankStage, incomeStage, flightStage] at hc

/-- Witness for C2 at the visa stage with `visaStatus = "yes"` and
completed analysis. -/
theorem C2_witness :
    (visaStage.dependencies.all fun d =>
      MIGRATION_STAGES.all fun t =>
        !(t.id == d) ||
          (getStageStatus t (some ⟨some "yes"⟩) true == "completed")) = true :=
  C2_getStageStatus_respects_dependencies (some ⟨some "yes"⟩) true
    visaStage (by decide) (by decide)

/-- C3: every stage of `MIGRATION_STAGES` other than `"visa"` is assigned
`"pending"` by `getStageStatus` for every input, and the `"visa"` stage is
`"completed"` exactly when analysis is complete and `visaStatus` is
`"yes"`, and `"in-progress"` exactly when analysis is complete and
`visaStatus` is `"applied"`. -/
theorem C3_only_visa_progresses :
    (∀ (md : Option MigrationData) (ac : Bool), ∀ s ∈ MIGRATION_STAGES,
        s.id ≠ "visa" → getStageStatus s md ac = "pending") ∧
    (∀ (md : Option MigrationData) (ac : Bool), ∀ s ∈ MIGRATION_STAGES,
        s.id = "visa" →
        (getStageStatus s md ac = "completed" ↔
          ac = true ∧ md.bind MigrationData.visaStatus = some "yes")) ∧
    (∀ (md : Option MigrationData) (ac : Bool), ∀ s ∈ MIGRATION_STAGES,
        s.id = "visa" →
        (getStageStatus s md ac = "in-progress" ↔
          ac = true ∧ md.bind MigrationData.visaStatus = some "applied")) := by
  refine ⟨?_, ?_, ?_⟩ <;> intro md ac s hs hid
  · fin_cases hs <;>
      first
        | exact absurd rfl hid
        | (cases ac <;>
            simp [getStageStatus, insuranceStage, bankStage, incomeStage, flightStage])
  · fin_cases hs <;>
      first
        | (exfalso; simp [insuranceStage, bankStage, incomeStage, flightStage] at hid)
        | (cases ac
           · simp [getStageStatus, visaStage]
           · by_cases h1 : md.bind MigrationData.visaStatus = some "yes"
             · simp [getStageStatus, visaStage, h1]
             · by_cases h2 : md.bind MigrationData.visaStatus = some "applied"
               · simp [getStageStatus, visaStage, h1, h2]
               · simp [getStageStatus, visaStage, h1, h2])
  · fin_cases hs <;>
      first
        | (exfalso; simp [insuranceStage, bankStage, incomeStage, flightStage] at hid)
        | (cases ac
           · simp [getStageStatus, visaStage]
           · by_cases h1 : md.bind MigrationData.visaStatus = some "yes"
             · simp [getStageStatus, visaStage, h1]
             · by_cases h2 : md.bind MigrationData.visaStatus = some "applied"
               · simp [getStageStatus, visaStage, h1, h2]
               · simp [getStageStatus, visaStage, h1, h2])

/-- Witness for C3: the insurance stage stays pending with a positive visa
status, and the visa stage's completed status matches its condition. -/
theorem C3_witness :
    getStageStatus insuranceStage (some ⟨some "yes"⟩) true = "pending" ∧
    (getStageStatus visaStage (some ⟨some "yes"⟩) true = "completed" ↔
      true = true ∧
        (some (⟨some "yes"⟩ : MigrationData)).bind MigrationData.visaStatus = some "yes") :=
  ⟨C3_only_visa_progresses.1 (some ⟨some "yes"⟩) true insuranceStage (by decide) (by decide),
   C3_only_visa_progresses.2.1 (some ⟨some "yes"⟩) true visaStage (by decide) (by decide)⟩

/-- C10: on the dashboard page the displayed critical-deadline count is
the number of timeline events with status `upcoming` and priority
`critical`, and for a non-empty timeline the displayed overall progress is
100 times the number of completed events divided by the total number of
events (the quotient carries no emptiness guard in the code). -/
theorem C10_dashboard_stats (tl : List TimelineEvent) (h : tl ≠ []) :
    upcomingDeadlines tl =
      tl.countP (fun event => event.status == "upcoming" && event.priority == "critical") ∧
    overallProgress tl = 100 * (completedTasks tl : ℚ) / (totalTasks tl : ℚ) ∧
    overallProgress tl * (totalTasks tl : ℚ) = 100 * (completedTasks tl : ℚ) := by
  have ht : (totalTasks tl : ℚ) ≠ 0 := by
    simp only [totalTasks, ne_eq, Nat.cast_eq_zero, List.length_eq_zero]
    exact h
  refine ⟨?_, ?_, ?_⟩
  · simp [upcomingDeadlines, List.countP_eq_length_filter]
  · simp only [overallProgress]
    rw [div_mul_eq_mul_div, mul_comm]
  · simp only [overallProgress]
    field_simp
    ring

/-- Witness for C10 on a concrete two-event timeline. -/
theorem C10_witness :
    upcomingDeadlines
        [⟨"1", "Submit application", "File the visa forms", 100, "completed", "critical", "document", none⟩,
         ⟨"2", "Book biometrics", "Schedule the appointment", 200, "upcoming", "critical", "appointment", some 4⟩] =
      List.countP (fun event => event.status == "upcoming" && event.priority == "critical")
        ([⟨"1", "Submit application", "File the visa forms", 100, "completed", "critical", "document", none⟩,
          ⟨"2", "Book biometrics", "Schedule the appointment", 200, "upcoming", "critical", "appointment", some 4⟩] :
          List TimelineEvent) ∧
    overallProgress
        [⟨"1", "Submit application", "File the visa forms", 100, "completed", "critical", "document", none⟩,
         ⟨"2", "Book biometrics", "Schedule the appointment", 200, "upcoming", "critical", "appointment", some 4⟩] =
      100 * (completedTasks
        [⟨"1", "Submit application", "File the visa forms", 100, "completed", "critical", "document", none⟩,
         ⟨"2", "Book biometrics", "Schedule the appointment", 200, "upcoming", "critical", "appointment", some 4⟩] : ℚ) /
        (totalTasks
        [⟨"1", "Submit application", "File the visa forms", 100, "completed", "critical", "document", none⟩,
         ⟨"2", "Book biometrics", "Schedule the appointment", 200, "upcoming", "critical", "appointment", some 4⟩] : ℚ) ∧
    overallProgress
        [⟨"1", "Submit application", "File the visa forms", 100, "completed", "critical", "document", none⟩,
         ⟨"2", "Book biometrics", "Schedule the appointment", 200, "upcoming", "critical", "appointment", some 4⟩] *
      (totalTasks
        [⟨"1", "Submit application", "File the visa forms", 100, "completed", "critical", "document", none⟩,
         ⟨"2", "Book biometrics", "Schedule the appointment", 200, "upcoming", "critical", "appointment", some 4⟩] : ℚ) =
      100 * (completedTasks
        [⟨"1", "Submit application", "File the visa forms", 100, "completed", "critical", "document", none⟩,
         ⟨"2", "Book biometrics", "Schedule the appointment", 200, "upcoming", "critical", "appointment", some 4⟩] : ℚ) :=
  C10_dashboard_stats _ (by simp)

theorem observedAt_le_resolveFact (stored cand : Fact) :
    stored.observedAt ≤ (resolveFact stored cand).observedAt := by
  unfold resolveFact
  split_ifs with h1 h2
  · exact le_of_lt h1
  · exact le_of_eq h2.1
  · exact le_refl _

theorem lookupFact_mergeFact_isSome (fs : FactSet) (dk : String) (cand : Fact)
    (k : String) (h : (lookupFact fs k).isSome) :
    (lookupFact (mergeFact fs dk cand) k).isSome := by
  induction fs with
  | nil => simp [lookupFact] at h
  | cons p rest ih =>
    obtain ⟨a, b⟩ := p
    by_cases hak : a = dk
    · subst hak
      by_cases h2 : a = k
      · subst h2
        simp [mergeFact, lookupFact]
      · simp [mergeFact, lookupFact, h2] at h ⊢
        exact h
    · by_cases h2 : a = k
      · subst h2
        simp [mergeFact, hak, lookupFact]
      · simp [mergeFact, hak, lookupFact, h2] at h ⊢
        exact ih h

theorem lookupFact_mergeFact_observedAt (fs : FactSet) (dk : String) (cand : Fact)
    (k : String) (f g : Fact)
    (hf : lookupFact fs k = some f)
    (hg : lookupFact (mergeFact fs dk cand) k = some g) :
    f.observedAt ≤ g.observedAt := by
  induction fs with
  | nil => simp [lookupFact] at hf
  | cons p rest ih =>
    obtain ⟨a, b⟩ := p
    by_cases hak : a = dk
    · subst hak
      by_cases h2 : a = k
      · subst h2
        simp [lookupFact] at hf
        simp [mergeFact, lookupFact] at hg
        rw [← hf, ← hg]
        exact observedAt_le_resolveFact b cand
      · simp [lookupFact, h2] at hf
        simp [mergeFact, lookupFact, h2] at hg
        rw [hf] at hg
        rw [Option.some.inj hg]
    · by_cases h2 : a = k
      · subst h2
        simp [lookupFact] at hf
        simp [mergeFact, hak, lookupFact] at hg
        rw [← hf, ← hg]
      · simp [lookupFact, h2] at hf
        simp [mergeFact, hak, lookupFact, h2] at hg
        exact ih hf hg

theorem lookupFact_mergeFacts_observedAt (cands : List (String × Fact)) (fs : FactSet)
    (k : String) (f g : Fact)
    (hf : lookupFact fs k = some f)
    (hg : lookupFact (mergeFacts fs cands) k = some g) :
    f.observedAt ≤ g.observedAt := by
  induction cands generalizing fs f with
  | nil =>
    simp only [mergeFacts, List.foldl_nil] at hg
    rw [hf] at hg
    rw [Option.some.inj hg]
  | cons kc rest ih =>
    simp only [mergeFacts, List.foldl_cons] at hg
    have hsome : (lookupFact (mergeFact fs kc.1 kc.2) k).isSome :=
      lookupFact_mergeFact_isSome fs kc.1 kc.2 k (by rw [hf]; rfl)
    obtain ⟨m, hm⟩ := Option.isSome_iff_exists.mp hsome
    have h1 := lookupFact_mergeFact_observedAt fs kc.1 kc.2 k f m hf hm
    have h2 := ih (mergeFact fs kc.1 kc.2) m hm (by simpa [mergeFacts] using hg)
    exact le_trans h1 h2

theorem mem_factKeys_mergeFact (fs : FactSet) (dk : String) (cand : Fact) (x : String) :
    x ∈ factKeys (mergeFact fs dk cand) ↔ x ∈ factKeys fs ∨ x = dk := by
  induction fs with
  | nil => simp [mergeFact, factKeys]
  | cons p rest ih =>
    obtain ⟨a, b⟩ := p
    by_cases hak : a = dk
    · subst hak
      simp [mergeFact, factKeys]
      tauto
    · simp [mergeFact, hak, factKeys] at ih ⊢
      rw [ih]
      tauto

theorem factKeys_mergeFact_nodup (fs : FactSet) (dk : String) (cand : Fact)
    (h : (factKeys fs).Nodup) : (factKeys (mergeFact fs dk cand)).Nodup := by
  induction fs with
  | nil => simp [mergeFact, factKeys]
  | cons p rest ih =>
    obtain ⟨a, b⟩ := p
    simp only [factKeys, List.map_cons, List.nodup_cons] at h
    obtain ⟨ha, hrest⟩ := h
    by_cases hak : a = dk
    · subst hak
      have hme : mergeFact ((a, b) :: rest) a cand = (a, resolveFact b cand) :: rest := by
        simp [mergeFact]
      rw [hme]
      simp only [factKeys, List.map_cons, List.nodup_cons]
      exact ⟨ha, hrest⟩
    · have hme : mergeFact ((a, b) :: rest) dk cand = (a, b) :: mergeFact rest dk cand := by
        simp [mergeFact, hak]
      rw [hme]
      simp only [factKeys, List.map_cons, List.nodup_cons]
      refine ⟨?_, ih hrest⟩
      intro hmem
      rcases (mem_factKeys_mergeFact rest dk cand a).mp hmem with h1 | h1
      · exact ha h1
      · exact hak h1

theorem factKeys_mergeFacts_nodup (cands : List (String × Fact)) (fs : FactSet)
    (h : (factKeys fs).Nodup) : (factKeys (mergeFacts fs cands)).Nodup := by
  induction cands generalizing fs with
  | nil => simpa [mergeFacts] using h
  | cons kc rest ih =>
    simp only [mergeFacts, List.foldl_cons]
    exact ih (mergeFact fs kc.1 kc.2) (factKeys_mergeFact_nodup fs kc.1 kc.2 h)

/-- C4: for every sequence of fact merges, the stored fact set keeps at
most one current value per key (key list stays duplicate-free), and the
value held for a key after further merges is never older by `observedAt`
than a value previously accepted for that key: stale candidates are
rejected, independent of arrival order. -/
theorem C4_factset_last_writer_wins
    (fs : FactSet) (pre suf : List (String × Fact)) (k : String) (f g : Fact)
    (hnodup : (factKeys fs).Nodup)
    (hf : lookupFact (mergeFacts fs pre) k = some f)
    (hg : lookupFact (mergeFacts fs (pre ++ suf)) k = some g) :
    f.observedAt ≤ g.observedAt ∧ (factKeys (mergeFacts fs (pre ++ suf))).Nodup := by
  have happ : mergeFacts fs (pre ++ suf) = mergeFacts (mergeFacts fs pre) suf := by
    simp [mergeFacts, List.foldl_append]
  constructor
  · exact lookupFact_mergeFacts_observedAt suf (mergeFacts fs pre) k f g hf (happ ▸ hg)
  · rw [happ]
    exact factKeys_mergeFacts_nodup suf _ (factKeys_mergeFacts_nodup pre fs hnodup)

/-- Witness for C4: the spec's scenario — a `visa_type` fact observed at
time 5 is not displaced by a later-arriving `visa_type` fact observed at
the earlier time 3; the fact set retains the student visa value. -/
theorem C4_witness :
    (⟨"student", 80, "doc1", 5⟩ : Fact).observedAt ≤
      (⟨"student", 80, "doc1", 5⟩ : Fact).observedAt ∧
    (factKeys (mergeFacts []
      ([("visa_type", ⟨"student", 80, "doc1", 5⟩)] ++
       [("visa_type", ⟨"work", 90, "news1", 3⟩)]))).Nodup :=
  C4_factset_last_writer_wins []
    [("visa_type", ⟨"student", 80, "doc1", 5⟩)]
    [("visa_type", ⟨"work", 90, "news1", 3⟩)]
    "visa_type" ⟨"student", 80, "doc1", 5⟩ ⟨"student", 80, "doc1", 5⟩
    (by decide) (by decide) (by decide)

theorem findStep_self (steps : List TimelineStep)
    (hnodup : (steps.map TimelineStep.stepId).Nodup) (s : TimelineStep)
    (hs : s ∈ steps) : findStep steps s.stepId = some s := by
  induction steps with
  | nil => simp at hs
  | cons a rest ih =>
    simp only [List.map_cons, List.nodup_cons] at hnodup
    obtain ⟨hna, hnrest⟩ := hnodup
    rcases List.mem_cons.mp hs with rfl | hs'
    · simp [findStep]
    · have hne : ¬(a.stepId == s.stepId) = true := by
        simp only [beq_iff_eq]
        intro he
        exact hna (he ▸ List.mem_map_of_mem TimelineStep.stepId hs')
      have hstep : List.find? (fun t => t.stepId == s.stepId) (a :: rest) =
          List.find? (fun t => t.stepId == s.stepId) rest :=
        List.find?_cons_of_neg rest hne
      rw [findStep, hstep]
      exact ih hnrest hs'

theorem mergeStep_self (s : TimelineStep) : mergeStep s s = s := by
  cases s
  simp [mergeStep]

/-- C5: a step present only in the old timeline and already completed is
retained, still marked completed, by `Reconcile`, even when the new
timeline omits it. -/
theorem C5_completed_steps_retained (oldT newT : Timeline) (s : TimelineStep)
    (hs : s ∈ oldT.steps) (hc : s.status = "completed")
    (habsent : ∀ t ∈ newT.steps, t.stepId ≠ s.stepId) :
    s ∈ (Reconcile oldT newT).steps ∧ s.status = "completed" := by
  refine ⟨?_, hc⟩
  simp only [Reconcile, reconcileSteps]
  apply List.mem_append_right
  rw [List.mem_filter]
  refine ⟨hs, ?_⟩
  have hnone : findStep newT.steps s.stepId = none := by
    rw [findStep, List.find?_eq_none]
    intro t ht
    simpa using habsent t ht
  simp [hc, hnone]

/-- Witness for C5: the spec's scenario — the old timeline holds `S1`
completed, the new timeline omits it, and the reconciled timeline still
contains `S1` marked completed. -/
theorem C5_witness :
    (⟨"S1", "Residence permit", "milestone", 10, "completed", [], false⟩ : TimelineStep) ∈
      (Reconcile ⟨[⟨"S1", "Residence permit", "milestone", 10, "completed", [], false⟩], 1, 11⟩
        ⟨[⟨"S2", "City registration", "document", 20, "upcoming", [], false⟩], 2, 22⟩).steps ∧
    (⟨"S1", "Residence permit", "milestone", 10, "completed", [], false⟩ :
      TimelineStep).status = "completed" :=
  C5_completed_steps_retained
    ⟨[⟨"S1", "Residence permit", "milestone", 10, "completed", [], false⟩], 1, 11⟩
    ⟨[⟨"S2", "City registration", "document", 20, "upcoming", [], false⟩], 2, 22⟩
    ⟨"S1", "Residence permit", "milestone", 10, "completed", [], false⟩
    (by decide) (by decide) (by decide)

/-- C6: `Reconcile` is an identity on equal arguments — for every
timeline whose step ids are unique (the timeline well-formedness
invariant), reconciling it with itself returns it unchanged. -/
theorem C6_reconcile_identity (T : Timeline)
    (hnodup : (T.steps.map TimelineStep.stepId).Nodup) :
    Reconcile T T = T := by
  obtain ⟨steps, generatedAt, hash⟩ := T
  simp only [Reconcile, reconcileSteps]
  have h1 : (steps.filter fun os =>
      os.status == "completed" && (findStep steps os.stepId).isNone) = [] := by
    rw [List.filter_eq_nil_iff]
    intro os hos
    have hfind := findStep_self steps hnodup os hos
    simp [hfind]
  have h2 : (steps.map fun ns =>
      match findStep steps ns.stepId with
      | some os => mergeStep os ns
      | none => ns) = steps := by
    have hmem : ∀ ns ∈ steps,
        (match findStep steps ns.stepId with
         | some os => mergeStep os ns
         | none => ns) = ns := by
      intro ns hns
      rw [findStep_self steps hnodup ns hns]
      exact mergeStep_self ns
    calc (steps.map fun ns =>
        match findStep steps ns.stepId with
        | some os => mergeStep os ns
        | none => ns) = steps.map id := List.map_congr_left hmem
      _ = steps := List.map_id steps
  rw [h1, h2, List.append_nil]

/-- Witness for C6 on a concrete one-step timeline. -/
theorem C6_witness :
    Reconcile ⟨[⟨"S1", "Residence permit", "milestone", 10, "completed", [], false⟩], 1, 11⟩
        ⟨[⟨"S1", "Residence permit", "milestone", 10, "completed", [], false⟩], 1, 11⟩ =
      ⟨[⟨"S1", "Residence permit", "milestone", 10, "completed", [], false⟩], 1, 11⟩ :=
  C6_reconcile_identity
    ⟨[⟨"S1", "Residence permit", "milestone", 10, "completed", [], false⟩], 1, 11⟩
    (by decide)

/-- C7: `Synthesize` is idempotent under an unchanged fact set — when the
digest of the snapshot equals the journey's current `sourceFactsHash` the
existing timeline is returned unchanged with no external call, and after
any successful call, calling again with the unchanged snapshot returns
the same timeline (hence the same `sourceFactsHash`) with no second
external-service call. -/
theorem C7_synthesize_idempotent
    (j : Journey) (facts : FactSet) (generatePlan : FactSet → Option Timeline) :
    (factsHash facts = j.timeline.sourceFactsHash →
      Synthesize j facts generatePlan = .ok (j.timeline, false)) ∧
    (∀ t b, Synthesize j facts generatePlan = .ok (t, b) →
      t.sourceFactsHash = factsHash facts ∧
      Synthesize { j with timeline := t } facts generatePlan = .ok (t, false)) := by
  constructor
  · intro hh
    simp [Synthesize, hh]
  · intro t b hok
    have hhash : t.sourceFactsHash = factsHash facts := by
      unfold Synthesize at hok
      by_cases hh : factsHash facts = j.timeline.sourceFactsHash
      · rw [if_pos hh] at hok
        simp only [Except.ok.injEq, Prod.mk.injEq] at hok
        rw [← hok.1]
        exact hh.symm
      · rw [if_neg hh] at hok
        cases hgen : generatePlan facts with
        | none =>
          rw [hgen] at hok
          exact absurd hok (by simp)
        | some draft =>
          rw [hgen] at hok
          dsimp only at hok
          by_cases hv : validateTimeline draft.steps = true
          · rw [if_pos hv] at hok
            simp only [Except.ok.injEq, Prod.mk.injEq] at hok
            rw [← hok.1]
          · rw [if_neg hv] at hok
            exact absurd hok (by simp)
    refine ⟨hhash, ?_⟩
    simp [Synthesize, hhash]

/-- Witness for C7 on a journey whose stored hash matches the empty
snapshot: both calls short-circuit and return the stored timeline. -/
theorem C7_witness :
    Synthesize ⟨"j1", 0, [], ⟨[], 0, 7⟩, "active"⟩ [] (fun _ => none) =
      .ok (⟨[], 0, 7⟩, false) ∧
    (Timeline.mk [] 0 7).sourceFactsHash = factsHash [] ∧
    Synthesize ⟨"j1", 0, [], ⟨[], 0, 7⟩, "active"⟩ [] (fun _ => none) =
      .ok (⟨[], 0, 7⟩, false) :=
  ⟨(C7_synthesize_idempotent ⟨"j1", 0, [], ⟨[], 0, 7⟩, "active"⟩ [] (fun _ => none)).1
      (by decide),
   ((C7_synthesize_idempotent ⟨"j1", 0, [], ⟨[], 0, 7⟩, "active"⟩ [] (fun _ => none)).2
      ⟨[], 0, 7⟩ false
      ((C7_synthesize_idempotent ⟨"j1", 0, [], ⟨[], 0, 7⟩, "active"⟩ [] (fun _ => none)).1
        (by decide))).1,
   ((C7_synthesize_idempotent ⟨"j1", 0, [], ⟨[], 0, 7⟩, "active"⟩ [] (fun _ => none)).2
      ⟨[], 0, 7⟩ false
      ((C7_synthesize_idempotent ⟨"j1", 0, [], ⟨[], 0, 7⟩, "active"⟩ [] (fun _ => none)).1
        (by decide))).2⟩

theorem Submit_of_processed (st : DispatchState) (t : Trigger)
    (h : t.dedupeKey ∈ st.processedKeys) : Submit st t = (st, .Deduplicated) := by
  simp [Submit, h]

theorem mem_processedKeys_SubmitAll (ts : List Trigger) (st : DispatchState)
    (k : String) (h : k ∈ st.processedKeys) :
    k ∈ (SubmitAll st ts).processedKeys := by
  induction ts generalizing st with
  | nil => simpa [SubmitAll] using h
  | cons t rest ih =>
    simp only [SubmitAll, List.foldl_cons]
    apply ih
    by_cases hc : t.dedupeKey ∈ st.processedKeys
    · simpa [Submit, hc] using h
    · simp [Submit, hc, List.mem_cons, h]

/-- C8: a trigger with a fresh `dedupeKey` is accepted and runs the
pipeline exactly once, and any later trigger with the same key — after
any intervening trigger sequence — is dropped unprocessed with the state
unchanged, so at-least-once delivery of the same logical trigger yields
exactly one pipeline execution. -/
theorem C8_dedupe_exactly_once (st : DispatchState) (t later : Trigger)
    (ts : List Trigger)
    (hfresh : t.dedupeKey ∉ st.processedKeys)
    (hlater : later.dedupeKey = t.dedupeKey) :
    (Submit st t).1.pipelineRuns = st.pipelineRuns + 1 ∧
    (Submit st t).2 = .Accepted ∧
    Submit (SubmitAll (Submit st t).1 ts) later =
      (SubmitAll (Submit st t).1 ts, .Deduplicated) := by
  have h1 : Submit st t =
      ({ processedKeys := t.dedupeKey :: st.processedKeys,
         pipelineRuns := st.pipelineRuns + 1 }, .Accepted) := by
    simp [Submit, hfresh]
  refine ⟨by rw [h1], by rw [h1], ?_⟩
  apply Submit_of_processed
  apply mem_processedKeys_SubmitAll
  rw [h1, hlater]
  exact List.mem_cons_self _ _

/-- Witness for C8: the spec's scenario — a trigger with dedupe key
`news-42` delivered twice (with an unrelated trigger in between) runs the
pipeline once and is deduplicated on redelivery. -/
theorem C8_witness :
    (Submit ⟨[], 0⟩ ⟨"j1", "event_observed", "news payload", 1, "news-42"⟩).1.pipelineRuns =
      0 + 1 ∧
    (Submit ⟨[], 0⟩ ⟨"j1", "event_observed", "news payload", 1, "news-42"⟩).2 =
      .Accepted ∧
    Submit (SubmitAll (Submit ⟨[], 0⟩ ⟨"j1", "event_observed", "news payload", 1, "news-42"⟩).1
        [⟨"j1", "document_parsed", "doc payload", 2, "doc-7"⟩])
      ⟨"j1", "event_observed", "news payload", 3, "news-42"⟩ =
      (SubmitAll (Submit ⟨[], 0⟩ ⟨"j1", "event_observed", "news payload", 1, "news-42"⟩).1
        [⟨"j1", "document_parsed", "doc payload", 2, "doc-7"⟩], .Deduplicated) :=
  C8_dedupe_exactly_once ⟨[], 0⟩
    ⟨"j1", "event_observed", "news payload", 1, "news-42"⟩
    ⟨"j1", "event_observed", "news payload", 3, "news-42"⟩
    [⟨"j1", "document_parsed", "doc payload", 2, "doc-7"⟩]
    (by decide) (by decide)

theorem dispatchStep_occupancy (st : JourneyDispatch) (e : DispatchEvent)
    (h1 : st.inFlightRuns ≤ 1) (h2 : st.queuedBatches.length ≤ 1) :
    (dispatchStep st e).inFlightRuns ≤ 1 ∧
    (dispatchStep st e).queuedBatches.length ≤ 1 := by
  cases e with
  | arrival t =>
    by_cases hz : st.inFlightRuns = 0
    · constructor
      · simp [dispatchStep, hz]
      · simpa [dispatchStep, hz] using h2
    · cases hq : st.queuedBatches with
      | nil =>
        constructor
        · simpa [dispatchStep, hz, hq] using h1
        · simp [dispatchStep, hz, hq]
      | cons batch rest =>
        constructor
        · simpa [dispatchStep, hz, hq] using h1
        · have := h2
          rw [hq] at this
          simpa [dispatchStep, hz, hq] using this
  | completion =>
    by_cases hz : st.inFlightRuns = 0
    · constructor
      · simp [dispatchStep, hz]
      · simp [dispatchStep, hz]
        exact h2
    · cases hq : st.queuedBatches with
      | nil =>
        constructor
        · simp [dispatchStep, hz, hq]
          omega
        · simp [dispatchStep, hz, hq]
      | cons batch rest =>
        constructor
        · simpa [dispatchStep, hz, hq] using h1
        · have := h2
          rw [hq] at this
          simp only [List.length_cons] at this
          simp [dispatchStep, hz, hq]
          omega

/-- C9: from the idle state, after every interleaving of trigger arrivals
and run completions (covering any number of concurrently submitted
triggers), the per-journey dispatcher has at most one pipeline run in
flight and at most one queued batch, so two runs for the same journey
never overlap. -/
theorem C9_at_most_one_run (events : List DispatchEvent) :
    (dispatchRun events).inFlightRuns ≤ 1 ∧
    (dispatchRun events).queuedBatches.length ≤ 1 := by
  suffices h : ∀ st : JourneyDispatch, st.inFlightRuns ≤ 1 →
      st.queuedBatches.length ≤ 1 →
      (events.foldl dispatchStep st).inFlightRuns ≤ 1 ∧
      (events.foldl dispatchStep st).queuedBatches.length ≤ 1 by
    exact h ⟨0, []⟩ (by simp) (by simp)
  induction events with
  | nil =>
    intro st h1 h2
    exact ⟨h1, h2⟩
  | cons e rest ih =>
    intro st h1 h2
    obtain ⟨g1, g2⟩ := dispatchStep_occupancy st e h1 h2
    simpa only [List.foldl_cons] using ih (dispatchStep st e) g1 g2

end Hackathon
